import Mathlib

/-!
Verification of the FlannelNetworkPlugin container-network driver.

This file shallowly embeds the parts of the Go source that the checked
claims are about: the IPAM RPC surface (RequestPool), the per-pool IP
allocator (AllocateIP / ReleaseIP / getAvailableUnusedIPs), the subnet
enumeration in a host subnet (ipsInSubnet), the pool-subnet lease
(reservePoolSubnet), the fwmark allocator (GenerateFWMARK / fwmarks.Get),
the VXLAN daemon supervision (startFlannel), endpoint deletion, and the
sharded distributed store's sync.

Go maps are embedded as association lists; machine integers as Nat;
fallible code as Except; the etcd KV as explicit state threaded through
the functions.  Randomness (rand.Intn, crypto/rand suffixes) is passed in
as explicit arguments; wall-clock time as an explicit `now : Nat`.
-/

namespace Flannel

/-! ## Association-list maps (embedding of Go maps) -/

/-- Lookup in an association list (Go map read `v, ok := m[k]`). -/
def lookupL {K V : Type} [DecidableEq K] : List (K × V) → K → Option V
  | [], _ => none
  | (k, v) :: rest, key => if k = key then some v else lookupL rest key

/-- Keys of an association list (Go `maps.Keys`). -/
def keysL {K V : Type} (m : List (K × V)) : List K :=
  m.map Prod.fst

/-- Delete a key (Go `delete(m, k)`). -/
def eraseL {K V : Type} [DecidableEq K] (m : List (K × V)) (k : K) : List (K × V) :=
  m.filter (fun p => ¬ p.1 = k)

/-- Insert or overwrite a key (Go `m[k] = v`). -/
def setL {K V : Type} [DecidableEq K] (m : List (K × V)) (k : K) (v : V) : List (K × V) :=
  (k, v) :: eraseL m k

/-- Whether an Except value is an error. -/
def isErr {ε α : Type} : Except ε α → Bool
  | .error _ => true
  | .ok _ => false

/-! ## C1: flannelDriver.RequestPool (src/pkg/driver/network.go, ipam part) -/

/-- Embedding of `docker_ipam.RequestPoolRequest` restricted to the fields
the driver reads: `V6` and `Options`. -/
structure RequestPoolRequest where
  V6 : Bool
  Options : List (String × String)

/-- Embedding of `docker_ipam.RequestPoolResponse`. -/
structure RequestPoolResponse where
  PoolID : String
  Pool : String
deriving DecidableEq

/-- Embedding of `flannelDriver.RequestPool`.  `getOrCreateNetwork` is the
driver's network-ensuring step, abstracted to the datum the response reads
from it: the network's cluster-wide CIDR (`network.GetInfo().Network.String()`).
Mirrors the source: reject V6; require a non-empty `flannel-id` option;
build `PoolID = "FlannelPool" + "-" + flannelID`; propagate the ensure error. -/
def requestPool (getOrCreateNetwork : String → Except String String)
    (request : RequestPoolRequest) : Except String RequestPoolResponse :=
  if request.V6 then
    .error "flannel plugin does not support ipv6"
  else
    match lookupL request.Options "flannel-id" with
    | some flannelNetworkID =>
      if flannelNetworkID = "" then
        .error "the IPAM driver option flannel-id needs to be set to a unique ID"
      else
        match getOrCreateNetwork flannelNetworkID with
        | .error e => .error e
        | .ok networkCIDR =>
          .ok { PoolID := "FlannelPool" ++ "-" ++ flannelNetworkID, Pool := networkCIDR }
    | none => .error "the IPAM driver option flannel-id needs to be set to a unique ID"

/-! ## C7: ipsInSubnet (src/driver/ip.go) -/

/-- Embedding of `subnet.Contains` for a subnet whose network address
`base` is aligned and which spans `size = 2^(32-prefixLen)` addresses:
containment is `base ≤ ip < base + size`.  IPv4 addresses are Nat. -/
def subnetContains (base size ip : Nat) : Bool :=
  base ≤ ip && ip < base + size

/-- The iteration of `ipsInSubnet`: `ip = nextIP(ip)` (increment), break
when the incremented address leaves the subnet, skip it when it equals
`subnet.IP` (the network address), otherwise append.  Structured with fuel;
`size + 1` steps always suffice to leave the subnet. -/
def ipsLoop (base size : Nat) : Nat → Nat → List Nat
  | 0, _ => []
  | fuel + 1, ip =>
    let ip2 := ip + 1
    if subnetContains base size ip2 then
      if ip2 = base then ipsLoop base size fuel ip2
      else ip2 :: ipsLoop base size fuel ip2
    else []

/-- Embedding of `ipsInSubnet` (src/driver/ip.go:8): start from the masked
network address and collect successor addresses while they stay inside the
subnet, skipping the network address. -/
def ipsInSubnet (base size : Nat) : List Nat :=
  ipsLoop base size (size + 1) base

/-- The broadcast address of an aligned subnet. -/
def broadcastAddr (base size : Nat) : Nat :=
  base + size - 1

/-! ## C6: endpoint deletion (src/pkg/flannel_network/network.go and
src/pkg/driver/network.go) -/

/-- Embedding of a flannel endpoint as held in `network.endpoints`
(the fields the deletion path carries along). -/
structure EndpointData where
  ipAddress : Nat
  macAddress : String
  vethInside : String
  vethOutside : String

/-- Embedding of `network.DeleteEndpoint` (src/pkg/flannel_network/network.go:457):
an unknown endpoint id yields the error `endpoint does not exist`; otherwise the
endpoint's own `Delete` (veth teardown, passed in as `deleteEndpoint`) runs and,
on success, the endpoint is removed from the map. -/
def networkDeleteEndpoint (endpoints : List (String × EndpointData)) (id : String)
    (deleteEndpoint : EndpointData → Except String Unit) :
    Except String (List (String × EndpointData)) :=
  match lookupL endpoints id with
  | none => .error ("endpoint " ++ id ++ " does not exist")
  | some endpoint =>
    match deleteEndpoint endpoint with
    | .error e => .error e
    | .ok _ => .ok (eraseL endpoints id)

/-- Embedding of `flannelDriver.DeleteEndpoint` (src/pkg/driver/network.go:60):
resolve the network from the docker network id (abstracted to the endpoints map
of the resolved network, or the lookup error) and delegate to the network's
`DeleteEndpoint`, wrapping its error. -/
def driverDeleteEndpoint (findNetwork : Except String (List (String × EndpointData)))
    (endpointID : String) (deleteEndpoint : EndpointData → Except String Unit) :
    Except String (List (String × EndpointData)) :=
  match findNetwork with
  | .error e => .error e
  | .ok endpoints =>
    match networkDeleteEndpoint endpoints endpointID deleteEndpoint with
    | .error e => .error ("failed to delete endpoint " ++ endpointID ++ ": " ++ e)
    | .ok rest => .ok rest

/-! ## C5: startFlannel (src/pkg/flannel_network/network.go:281) -/

/-- The substring the daemon supervision watches for on stdout/stderr. -/
def bootstrapMarker : String :=
  "bootstrap done"

/-- The bootstrap deadline of `startFlannel` in milliseconds
(`time.After(1500 * time.Millisecond)`). -/
def bootstrapTimeoutMs : Nat :=
  1500

/-- Is `pat` a leading segment of `s`? -/
def charsStartWith : List Char → List Char → Bool
  | _, [] => true
  | [], _ :: _ => false
  | c :: cs, p :: ps => c == p && charsStartWith cs ps

/-- Does `s` contain `pat` as a contiguous segment? -/
def charsContain (pat : List Char) : List Char → Bool
  | [] => charsStartWith [] pat
  | c :: rest => charsStartWith (c :: rest) pat || charsContain pat rest

/-- Modelled from the spec: `readPipe` (called at
src/pkg/flannel_network/network.go:309 but not itself under src/) signals the
bootstrap channel exactly when some output line contains the substring
`"bootstrap done"`. -/
def readPipeSignals (lines : List String) : Bool :=
  lines.any (fun line => charsContain bootstrapMarker.data line.data)

/-- Which arm of the `select` in `startFlannel` fires first: the child
process exiting, the bootstrap marker being observed, or the
1.5-second timer (`bootstrapTimeoutMs`). -/
inductive FlanneldFirstEvent where
  | exitedPrematurely
  | bootstrapDone
  | timedOut
deriving DecidableEq

/-- One observed run of the spawned flanneld child: its output lines and
which select arm fired first. -/
structure FlanneldRun where
  stdoutLines : List String
  stderrLines : List String
  firstEvent : FlanneldFirstEvent

/-- A run observation is well-formed when the bootstrap arm can only have
fired if some stdout/stderr line actually contains the marker (that is the
only way `readPipe` closes the bootstrap channel). -/
def runWellFormed (r : FlanneldRun) : Prop :=
  r.firstEvent = .bootstrapDone → readPipeSignals (r.stdoutLines ++ r.stderrLines) = true

/-- Result of `startFlannel`: the returned error or success, plus whether
the child process was killed on the way. -/
structure StartFlannelResult where
  outcome : Except String Unit
  killedProcess : Bool

/-- Embedding of the supervision logic of `startFlannel`
(src/pkg/flannel_network/network.go:328-358): premature exit fails;
timeout kills the child and fails; after a bootstrap signal the env file is
loaded (`loadFlannelConfig`, abstracted as `loadEnvFile`), whose failure
also kills the child; only then does startup succeed. -/
def startFlannel (r : FlanneldRun) (loadEnvFile : Except String Unit) :
    StartFlannelResult :=
  match r.firstEvent with
  | .exitedPrematurely =>
    { outcome := .error "flanneld exited prematurely", killedProcess := false }
  | .timedOut =>
    { outcome := .error "flanneld failed to bootstrap within 1.5 seconds",
      killedProcess := true }
  | .bootstrapDone =>
    match loadEnvFile with
    | .error e => { outcome := .error e, killedProcess := true }
    | .ok _ => { outcome := .ok (), killedProcess := false }

/-! ## C8: pool-subnet leases (src/plugin/pkg/ipam/address_space_etcd.go) -/

/-- Embedding of `PoolSubnetLeaseResult`. -/
structure PoolSubnetLeaseResult where
  Success : Bool
  PoolID : String
deriving DecidableEq

/-- The `address-space` KV: subnet key (the subnet string, with the
`/`-to-`-` key transformation left implicit since it is injective)
mapped to the owning flannel network id. -/
abbrev AddressSpaceKV : Type :=
  List (String × String)

/-- Embedding of `reservePoolSubnet` (src/plugin/pkg/ipam/address_space_etcd.go:54):
a transaction putting `subnetKey ← id` under the precondition
`CreateRevision = 0` (key absent), reading the current value otherwise.
Success when the put went through or the existing value already equals `id`. -/
def reservePoolSubnet (kv : AddressSpaceKV) (subnet id : String) :
    PoolSubnetLeaseResult × AddressSpaceKV :=
  match lookupL kv subnet with
  | none => ({ Success := true, PoolID := "" }, setL kv subnet id)
  | some poolID =>
    if poolID = id then ({ Success := true, PoolID := "" }, kv)
    else ({ Success := false, PoolID := poolID }, kv)

/-- Modelled from the spec: the enumeration loop of
`GetNewOrExistingPool` (§4.2) is not under src/ (only `reservePoolSubnet`
is); per the spec it walks the candidate subnets in canonical order,
attempts `reservePoolSubnet` on each, reuses on success, and fails only
when the full enumeration is exhausted. -/
def getNewOrExistingPool : List String → AddressSpaceKV → String →
    Except String (String × AddressSpaceKV)
  | [], _, _ => .error "no free subnets in the address space"
  | subnet :: rest, kv, id =>
    let step := reservePoolSubnet kv subnet id
    if step.1.Success then .ok (subnet, step.2)
    else getNewOrExistingPool rest step.2 id

/-! ## C4: fwmark allocation (src/plugin/pkg/service_lb/fwmarks.go) -/

/-- One round of the reflected CRC-32 bit loop with the IEEE polynomial
0xEDB88320 (shift right, conditionally xor the polynomial). -/
def crc32Round (c : Nat) : Nat :=
  if c % 2 = 1 then (c / 2) ^^^ 0xEDB88320 else c / 2

/-- Fold one byte into a CRC-32 state: xor it in, then run eight bit
rounds. -/
def crc32Byte (crc b : Nat) : Nat :=
  Nat.repeat crc32Round 8 (crc ^^^ b)

/-- Embedding of `crc32.ChecksumIEEE` over the bytes of a string.  The ids
hashed here are ASCII, so the byte sequence equals the code points; checked
against the standard vector `crc32("123456789") = 0xCBF43926`. -/
def crc32 (s : String) : Nat :=
  0xFFFFFFFF ^^^ (s.data.foldl (fun crc ch => crc32Byte crc (ch.toNat % 256)) 0xFFFFFFFF)

/-- `maxAttempts` of `GenerateFWMARK`. -/
def maxAttempts : Nat :=
  1000

/-- The attempt loop of `GenerateFWMARK`
(src/plugin/pkg/service_lb/fwmarks.go:174): hash `currentName`; on
collision with an existing fwmark take the next random suffix and retry
with `serviceID + "_" + suffix` (the networkID is dropped by the source on
retry).  The crypto/rand suffixes are passed in as a list; an exhausted
list embeds a `rand.Read` failure. -/
def generateFWMARKLoop (serviceID : String) (existingFWMARKs : List Nat) :
    Nat → String → List String → Except String Nat
  | 0, _, _ => .error "unable to generate a unique FWMARK after maximum attempts"
  | fuel + 1, currentName, suffixes =>
    let fwmark := crc32 currentName
    if existingFWMARKs.contains fwmark then
      match suffixes with
      | [] => .error "failed to generate random suffix"
      | s :: rest =>
        generateFWMARKLoop serviceID existingFWMARKs fuel (serviceID ++ "_" ++ s) rest
    else .ok fwmark

/-- Embedding of `GenerateFWMARK` (src/plugin/pkg/service_lb/fwmarks.go:162):
start from `serviceID + "-" + networkID` and run up to `maxAttempts`
rounds. -/
def generateFWMARK (serviceID networkID : String) (existingFWMARKs : List Nat)
    (suffixes : List String) : Except String Nat :=
  generateFWMARKLoop serviceID existingFWMARKs maxAttempts
    (serviceID ++ "-" ++ networkID) suffixes

/-- The claim's reading of `GenerateFWMARK`, stated for comparison: on a
collision the random suffix is appended to the serviceID-NETWORKID
combination (not to the serviceID alone) before re-hashing. -/
def generateFWMARKClaimLoop (base : String) (existingFWMARKs : List Nat) :
    Nat → String → List String → Except String Nat
  | 0, _, _ => .error "unable to generate a unique FWMARK after maximum attempts"
  | fuel + 1, currentName, suffixes =>
    let fwmark := crc32 currentName
    if existingFWMARKs.contains fwmark then
      match suffixes with
      | [] => .error "failed to generate random suffix"
      | s :: rest =>
        generateFWMARKClaimLoop base existingFWMARKs fuel (base ++ "_" ++ s) rest
    else .ok fwmark

/-- The claim's reading of `GenerateFWMARK` (see `generateFWMARKClaimLoop`). -/
def generateFWMARKClaim (serviceID networkID : String) (existingFWMARKs : List Nat)
    (suffixes : List String) : Except String Nat :=
  generateFWMARKClaimLoop (serviceID ++ "-" ++ networkID) existingFWMARKs maxAttempts
    (serviceID ++ "-" ++ networkID) suffixes

/-- The fwmark KV for one networkID: `list/<fwmark> → serviceID` and
`by-service/<serviceID> → fwmark`. -/
structure FwmarksNetworkKV where
  listEntries : List (Nat × String)
  byService : List (String × Nat)

/-- Embedding of `fwmarks.Get` (src/plugin/pkg/service_lb/fwmarks.go:51)
for one networkID, run without concurrent writers: an existing by-service
entry is returned as-is; otherwise the reserved fwmarks are read,
`GenerateFWMARK` produces a non-colliding fwmark, and the transaction
(precondition: fwmark key absent, which holds since the fwmark avoids every
key just read) atomically writes both `serviceID → fwmark` and
`fwmark → serviceID`, so the retry loop commits on its first pass. -/
def fwmarksGet (st : FwmarksNetworkKV) (serviceID networkID : String)
    (suffixes : List String) : Except String (Nat × FwmarksNetworkKV) :=
  match lookupL st.byService serviceID with
  | some existingFwmark => .ok (existingFwmark, st)
  | none =>
    match generateFWMARK serviceID networkID (keysL st.listEntries) suffixes with
    | .error e => .error e
    | .ok fwmark =>
      .ok (fwmark,
        { listEntries := setL st.listEntries fwmark serviceID,
          byService := setL st.byService serviceID fwmark })

/-! ## C2, C3, C10: per-pool IP allocation (src/unnamed/part_003, package ipam)

IPs are abstract Nat (the `net.IP <-> string` round-trips of the source are
the identity on them, so the `net.ParseIP` steps that can only fail on
malformed keys are dropped).  The pool's etcd prefix holds one reservation
per IP; it is passed around explicitly as `kv`. -/

/-- Embedding of the `reservation` record of package ipam. -/
structure IPReservation where
  ip : Nat
  reservationType : String
  reservedAt : Nat
  mac : String
deriving DecidableEq

/-- The reservation entries under this pool's etcd prefix. -/
abbrev ReservationsKV : Type :=
  List (Nat × IPReservation)

/-- `ReservationTypeReserved`. -/
def reservationTypeReserved : String :=
  "reserved"

/-- `ReservationTypeContainerIP`. -/
def reservationTypeContainerIP : String :=
  "container-ip"

/-- `ReservationTypeServiceVIP`. -/
def reservationTypeServiceVIP : String :=
  "service-vip"

/-- Five minutes, in the abstract time unit of `now`/`freedAt` (seconds). -/
def fiveMinutes : Nat :=
  300

/-- Embedding of `etcdPool`: the host-subnet bounds, the enumerated
usable IPs, the authoritative in-memory reservations, and the in-memory
`unusedIPs : ip -> freedAt` map. -/
structure PoolState where
  subnetBase : Nat
  subnetSize : Nat
  allIPs : List Nat
  reservedIPs : List (Nat × IPReservation)
  unusedIPs : List (Nat × Nat)

/-- Embedding of `etcdPool.syncIPs` (src/unnamed/part_003:187): re-read
the reservations and rebuild `unusedIPs` as every enumerated IP without a
reservation, freed at `now`.  (`getReservations` is not under src/;
per the spec the KV is the authority for reservations, so it is the `kv`
argument.) -/
def syncIPs (p : PoolState) (kv : ReservationsKV) (now : Nat) : PoolState :=
  { p with
    reservedIPs := kv,
    unusedIPs :=
      (p.allIPs.filter (fun ip => (lookupL kv ip).isNone)).map (fun ip => (ip, now)) }

/-- The first pass of `getAvailableUnusedIPs`: the unused IPs whose
`freedAt` lies more than five minutes before `now`
(`value.Add(5 * time.Minute).Before(time.Now())`). -/
def staleUnusedIPs (p : PoolState) (now : Nat) : List Nat :=
  (p.unusedIPs.filter (fun pr => pr.2 + fiveMinutes < now)).map Prod.fst

/-- Embedding of `etcdPool.getAvailableUnusedIPs` (src/unnamed/part_003:208):
prefer IPs freed more than five minutes ago; if none, take all of
`unusedIPs`; if still none, re-sync from the KV and take all of
`unusedIPs`; only if that is still empty, fail. -/
def getAvailableUnusedIPs (p : PoolState) (kv : ReservationsKV) (now : Nat) :
    Except String (List Nat × PoolState) :=
  let a1 := staleUnusedIPs p now
  let a2 := if a1.length = 0 then keysL p.unusedIPs else a1
  if a2.length = 0 then
    let p2 := syncIPs p kv now
    let a3 := keysL p2.unusedIPs
    if a3.length = 0 then .error "no more IPs available for pool"
    else .ok (a3, p2)
  else .ok (a2, p)

/-- The message of the Go runtime panic thrown by `rand.Intn` on a
non-positive argument. -/
def intnPanicMsg : String :=
  "panic: invalid argument to Intn"

/-- Embedding of `rand.Intn(n)` with explicit randomness `r`: panics
(modelled as this distinguished error) when `n = 0`, otherwise yields a
uniform index below `n`. -/
def intn (n r : Nat) : Except String Nat :=
  if n = 0 then .error intnPanicMsg else .ok (r % n)

/-- Modelled from the spec: `getNextAvailableIP` (called at
src/unnamed/part_003:126 but not itself under src/) returns the
numerically smallest candidate (§4.3: `random=false` picks the numerically
smallest); the `reservedIPs` argument of the source signature is kept. -/
def getNextAvailableIP (availableUnusedIPs : List Nat)
    (_reservedIPs : List (Nat × IPReservation)) : Except String Nat :=
  match availableUnusedIPs with
  | [] => .error "no available IP"
  | ip :: rest => .ok (rest.foldl Nat.min ip)

/-- Embedding of `IPLeaseResult`. -/
structure IPLeaseResult where
  Success : Bool
  reservation : IPReservation

/-- Modelled from the spec: `reserveIP` (called at
src/unnamed/part_003:133 but not itself under src/) is a conditional put
with precondition `CreateRevision = 0` (§4.3 step 3): it succeeds exactly
when the IP has no reservation yet, writing `(type, mac, reservedAt=now)`. -/
def reserveIP (kv : ReservationsKV) (ip : Nat) (allocationType mac : String)
    (now : Nat) : IPLeaseResult × ReservationsKV :=
  match lookupL kv ip with
  | some existing => ({ Success := false, reservation := existing }, kv)
  | none =>
    let r : IPReservation :=
      { ip := ip, reservationType := allocationType, reservedAt := now, mac := mac }
    ({ Success := true, reservation := r }, setL kv ip r)

/-- Modelled from the spec: `allocateReservedIPForContainer` /
`allocateReservedIPForService` (called at src/unnamed/part_003:90,95 but
not under src/) re-reserve a preferred IP through the precondition chain
of §4.3 step 1: key absent, or existing value `reserved` (with or without
a mac key); every success case overwrites with `(type, mac, reservedAt=now)`. -/
def allocateReservedIP (kv : ReservationsKV) (ip : Nat) (allocationType mac : String)
    (now : Nat) : IPLeaseResult × ReservationsKV :=
  match lookupL kv ip with
  | none =>
    let r : IPReservation :=
      { ip := ip, reservationType := allocationType, reservedAt := now, mac := mac }
    ({ Success := true, reservation := r }, setL kv ip r)
  | some existing =>
    if existing.reservationType = reservationTypeReserved then
      let r : IPReservation :=
        { ip := ip, reservationType := allocationType, reservedAt := now, mac := mac }
      ({ Success := true, reservation := r }, setL kv ip r)
    else ({ Success := false, reservation := existing }, kv)

/-- The `for` loop of `etcdPool.AllocateIP` (src/unnamed/part_003:115),
with fuel for the unbounded Go loop: fetch candidates, pick one (uniformly
via `rand.Intn` when `random`, else the numerically smallest), attempt the
conditional reservation, and on a lost race try again. -/
def allocateIPLoop (allocationType mac : String) (random : Bool) (rand : Nat → Nat)
    (now : Nat) : Nat → PoolState → ReservationsKV →
    Except String (Nat × PoolState × ReservationsKV)
  | 0, _, _ => .error "allocation retry budget exhausted"
  | fuel + 1, p, kv =>
    match getAvailableUnusedIPs p kv now with
    | .error e => .error ("Error getting available unused IPs: " ++ e)
    | .ok (availableUnusedIPs, p1) =>
      let picked : Except String Nat :=
        if random then
          match intn availableUnusedIPs.length (rand fuel) with
          | .error e => .error e
          | .ok i => .ok (availableUnusedIPs.getD i 0)
        else getNextAvailableIP availableUnusedIPs p1.reservedIPs
      match picked with
      | .error e => .error e
      | .ok ip =>
        let step := reserveIP kv ip allocationType mac now
        if step.1.Success then
          .ok (step.1.reservation.ip,
            { p1 with
              reservedIPs := setL p1.reservedIPs step.1.reservation.ip step.1.reservation,
              unusedIPs := eraseL p1.unusedIPs step.1.reservation.ip },
            step.2)
        else allocateIPLoop allocationType mac random rand now fuel p1 step.2

/-- Embedding of `etcdPool.AllocateIP` (src/unnamed/part_003:75): the
preferred-IP re-reservation path (when a preferred IP is given, in-subnet,
and the type/mac conditions hold) followed by the allocation loop.  A
missing preferred IP (`none`) embeds `reservedIP = ""`. -/
def allocateIP (p : PoolState) (kv : ReservationsKV) (preferredIP : Option Nat)
    (mac allocationType : String) (random : Bool) (rand : Nat → Nat) (now fuel : Nat) :
    Except String (Nat × PoolState × ReservationsKV) :=
  match preferredIP with
  | some reservedIP =>
    if (mac ≠ "" ∧ allocationType = reservationTypeContainerIP) ∨
        allocationType = reservationTypeServiceVIP then
      if subnetContains p.subnetBase p.subnetSize reservedIP then
        let att := allocateReservedIP kv reservedIP allocationType mac now
        if att.1.Success then
          let p2 :=
            if (lookupL p.reservedIPs reservedIP).isNone then
              { p with unusedIPs := eraseL p.unusedIPs reservedIP }
            else p
          .ok (att.1.reservation.ip,
            { p2 with reservedIPs := setL p2.reservedIPs reservedIP att.1.reservation },
            att.2)
        else allocateIPLoop allocationType mac random rand now fuel p att.2
      else allocateIPLoop allocationType mac random rand now fuel p kv
    else allocateIPLoop allocationType mac random rand now fuel p kv
  | none => allocateIPLoop allocationType mac random rand now fuel p kv

/-- Embedding of the `releaseReservation` result. -/
structure ReleaseResult where
  Success : Bool
  reservation : IPReservation

/-- Modelled from the spec: `releaseReservation` (called at
src/unnamed/part_003:158 but not under src/) is a compare-and-delete with
`value = <existing>`; a key already gone counts as success (§9: the source
treats a released IP that is already gone in the KV as a success); a key
holding a different reservation fails and reports the current one. -/
def releaseReservation (kv : ReservationsKV) (r : IPReservation) :
    ReleaseResult × ReservationsKV :=
  match lookupL kv r.ip with
  | none => ({ Success := true, reservation := r }, kv)
  | some current =>
    if current = r then ({ Success := true, reservation := r }, eraseL kv r.ip)
    else ({ Success := false, reservation := current }, kv)

/-- Embedding of `etcdPool.ReleaseIP` (src/unnamed/part_003:148): an IP
without an in-memory reservation is an error; otherwise compare-and-delete
in the KV, and on success drop it from `reservedIPs` and record it in
`unusedIPs` with `freedAt = now`; a failed compare-and-delete is an error
that refreshes the in-memory entry. -/
def releaseIP (p : PoolState) (kv : ReservationsKV) (ip : Nat) (now : Nat) :
    Except String Unit × PoolState × ReservationsKV :=
  match lookupL p.reservedIPs ip with
  | none => (.error "IP is not reserved in this pool and cannot be released", p, kv)
  | some r =>
    let step := releaseReservation kv r
    if step.1.Success then
      (.ok (),
        { p with
          reservedIPs := eraseL p.reservedIPs ip,
          unusedIPs := setL p.unusedIPs ip now },
        step.2)
    else
      (.error "could not release ip: it has since been reserved differently",
        { p with reservedIPs := setL p.reservedIPs ip step.1.reservation },
        step.2)

/-! ## C9: sharded distributed store sync (src/plugin/pkg/docker/networks.go,
package etcd part)

The store is generic in an item type `T` with an `Equals` comparator,
embedded as `eq : T → T → Bool`.  Go maps appear as association lists;
etcd holds, per shard key, the serialized items of that shard (the JSON
round-trip is the identity here, so items are stored directly). -/

/-- Embedding of `ShardItem`. -/
structure ShardItem (T : Type) where
  ShardKey : String
  ID : String
  Value : T

/-- Embedding of `ShardItemChange`. -/
structure ShardItemChange (T : Type) where
  ShardKey : String
  ID : String
  Previous : T
  Current : T

/-- A shard: itemID to item. -/
abbrev ShardMap (T : Type) : Type :=
  List (String × T)

/-- Sharded data: shardKey to shard. -/
abbrev ShardedData (T : Type) : Type :=
  List (String × ShardMap T)

/-- Embedding of `shardedDistributedStore.syncToInternalState`
(src/plugin/pkg/docker/networks.go:452): diff the given truth for one
shard against the stored shard (items present on both sides but unequal
under `Equals` become changes, items only in the truth become additions,
stored items absent from the truth become removals) and replace the stored
shard by a clone of the truth.  The flat `data`/`itemToShardKey` indices
the source rebuilds afterwards are caches fully determined by
`shardedData` and carry no further state. -/
def syncToInternalState {T : Type} (eq : T → T → Bool) (shardedData : ShardedData T)
    (shardKey : String) (truth : ShardMap T) :
    List (ShardItemChange T) × List (ShardItem T) × List (ShardItem T) × ShardedData T :=
  let shardItems := (lookupL shardedData shardKey).getD []
  let changes := truth.filterMap (fun pr =>
    match lookupL shardItems pr.1 with
    | some previousItem =>
      if eq previousItem pr.2 then none
      else some { ShardKey := shardKey, ID := pr.1,
                  Previous := previousItem, Current := pr.2 }
    | none => none)
  let added := truth.filterMap (fun pr =>
    match lookupL shardItems pr.1 with
    | some _ => none
    | none => some { ShardKey := shardKey, ID := pr.1, Value := pr.2 })
  let removed := (shardItems.filter (fun pr => (lookupL truth pr.1).isNone)).map
    (fun pr => { ShardKey := shardKey, ID := pr.1, Value := pr.2 })
  (changes, added, removed, setL shardedData shardKey truth)

/-- The loop of `sync` over the shards loaded from etcd
(src/plugin/pkg/docker/networks.go:406-428): non-local shards are diffed
into the internal state; for the local shard, every truth item is written
(`PutIfNewOrChanged`) and stale keys deleted, which replaces the local
shard in etcd by the truth. -/
def syncShards {T : Type} (eq : T → T → Bool) (localShardKey : String)
    (truth : ShardMap T) :
    List (String × ShardMap T) → ShardedData T → ShardedData T →
    List (ShardItemChange T) × List (ShardItem T) × List (ShardItem T) ×
      ShardedData T × ShardedData T
  | [], st, etcd => ([], [], [], st, etcd)
  | (shardKey, shardItems) :: rest, st, etcd =>
    if shardKey = localShardKey then
      syncShards eq localShardKey truth rest st (setL etcd shardKey truth)
    else
      let localStep := syncToInternalState eq st shardKey shardItems
      let restStep := syncShards eq localShardKey truth rest localStep.2.2.2 etcd
      (localStep.1 ++ restStep.1, localStep.2.1 ++ restStep.2.1,
        localStep.2.2.1 ++ restStep.2.2.1, restStep.2.2.2.1, restStep.2.2.2.2)

/-- The outcome of one `sync`: the new in-memory state, the new etcd
contents, and the three callback payloads (handlers fire exactly on the
non-empty ones). -/
structure SyncResult (T : Type) where
  state : ShardedData T
  etcd : ShardedData T
  added : List (ShardItem T)
  changes : List (ShardItemChange T)
  removed : List (ShardItem T)

/-- Embedding of `shardedDistributedStore.sync`
(src/plugin/pkg/docker/networks.go:394): diff the local shard against the
truth, then walk the shards loaded from etcd (non-local ones are diffed in,
the local one is written out), and report the accumulated
added/changed/removed callback payloads. -/
def sync {T : Type} (eq : T → T → Bool) (localShardKey : String)
    (st : ShardedData T) (etcd : ShardedData T) (truth : ShardMap T) : SyncResult T :=
  let localStep := syncToInternalState eq st localShardKey truth
  let loop := syncShards eq localShardKey truth etcd localStep.2.2.2 etcd
  { state := loop.2.2.2.1, etcd := loop.2.2.2.2,
    added := localStep.2.1 ++ loop.2.1,
    changes := localStep.1 ++ loop.1,
    removed := localStep.2.2.1 ++ loop.2.2.1 }

end Flannel

namespace Flannel

/-! ## Helper lemmas about the map embedding -/

theorem eraseL_cons_self {K V : Type} [DecidableEq K] (k0 : K) (v0 : V)
    (rest : List (K × V)) (k : K) (hk : k0 = k) :
    eraseL ((k0, v0) :: rest) k = eraseL rest k := by
  simp [eraseL, List.filter_cons, hk]

theorem eraseL_cons_ne {K V : Type} [DecidableEq K] (k0 : K) (v0 : V)
    (rest : List (K × V)) (k : K) (hk : ¬ k0 = k) :
    eraseL ((k0, v0) :: rest) k = (k0, v0) :: eraseL rest k := by
  simp [eraseL, List.filter_cons, hk]

theorem lookupL_eraseL_ne {K V : Type} [DecidableEq K] (m : List (K × V)) (k k' : K)
    (h : k' ≠ k) : lookupL (eraseL m k) k' = lookupL m k' := by
  induction m with
  | nil => rfl
  | cons p rest ih =>
    obtain ⟨k0, v0⟩ := p
    by_cases hk : k0 = k
    · rw [eraseL_cons_self k0 v0 rest k hk, ih]
      have hne : ¬ k0 = k' := by
        rw [hk]
        exact fun he => h he.symm
      simp [lookupL, hne]
    · rw [eraseL_cons_ne k0 v0 rest k hk]
      by_cases hkey : k0 = k'
      · simp [lookupL, hkey]
      · simp [lookupL, hkey, ih]

theorem lookupL_eraseL_self {K V : Type} [DecidableEq K] (m : List (K × V)) (k : K) :
    lookupL (eraseL m k) k = none := by
  induction m with
  | nil => rfl
  | cons p rest ih =>
    obtain ⟨k0, v0⟩ := p
    by_cases hk : k0 = k
    · rw [eraseL_cons_self k0 v0 rest k hk]
      exact ih
    · rw [eraseL_cons_ne k0 v0 rest k hk]
      simp [lookupL, hk, ih]

theorem lookupL_setL_self {K V : Type} [DecidableEq K] (m : List (K × V)) (k : K) (v : V) :
    lookupL (setL m k v) k = some v := by
  simp [setL, lookupL]

theorem lookupL_setL_ne {K V : Type} [DecidableEq K] (m : List (K × V)) (k k' : K) (v : V)
    (h : k' ≠ k) : lookupL (setL m k v) k' = lookupL m k' := by
  show (if k = k' then some v else lookupL (eraseL m k) k') = lookupL m k'
  rw [if_neg (fun he => h he.symm)]
  exact lookupL_eraseL_ne m k k' h

/-- C1: `RequestPool` rejects V6 requests, rejects a missing or empty
`flannel-id` option, and otherwise answers with
`PoolID = "FlannelPool-" ++ flannelID` and `Pool` = the network's
cluster-wide CIDR (when the network-ensuring step succeeds). -/
theorem c1_requestPool_spec (getOrCreateNetwork : String → Except String String)
    (request : RequestPoolRequest) :
    (request.V6 = true → isErr (requestPool getOrCreateNetwork request) = true) ∧
    (lookupL request.Options "flannel-id" = none →
      isErr (requestPool getOrCreateNetwork request) = true) ∧
    (lookupL request.Options "flannel-id" = some "" →
      isErr (requestPool getOrCreateNetwork request) = true) ∧
    (∀ flannelID networkCIDR, request.V6 = false →
      lookupL request.Options "flannel-id" = some flannelID → flannelID ≠ "" →
      getOrCreateNetwork flannelID = .ok networkCIDR →
      requestPool getOrCreateNetwork request =
        .ok { PoolID := "FlannelPool" ++ "-" ++ flannelID, Pool := networkCIDR }) := by
  refine ⟨?_, ?_, ?_, ?_⟩
  · intro h
    simp [requestPool, h, isErr]
  · intro h
    by_cases hv : request.V6 <;> simp [requestPool, h, hv, isErr]
  · intro h
    by_cases hv : request.V6 <;> simp [requestPool, h, hv, isErr]
  · intro flannelID networkCIDR hv hl hne hg
    simp [requestPool, hv, hl, hne, hg]

/-- Witness for C1 at a concrete request. -/
theorem c1_requestPool_spec_witness :
    requestPool (fun _ => .ok "10.1.0.0/20")
        { V6 := false, Options := [("flannel-id", "net1")] } =
      .ok { PoolID := "FlannelPool" ++ "-" ++ "net1", Pool := "10.1.0.0/20" } :=
  (c1_requestPool_spec (fun _ => .ok "10.1.0.0/20")
      { V6 := false, Options := [("flannel-id", "net1")] }).2.2.2
    "net1" "10.1.0.0/20" rfl rfl (by decide) rfl

/-- C7 (code check): on the subnet 10.0.0.0/30 (network address
167772160, 4 addresses), `ipsInSubnet` returns the three successor
addresses including 167772163 = 10.0.0.3, which is the broadcast address.
The code's own comment says the broadcast address is excluded; it is not. -/
theorem c7_ipsInSubnet_includes_broadcast :
    ipsInSubnet 167772160 4 = [167772161, 167772162, 167772163] ∧
    broadcastAddr 167772160 4 ∈ ipsInSubnet 167772160 4 := by
  constructor
  · rfl
  · simp [broadcastAddr]
    decide

/-- C6 (counterexample): deleting an endpoint that is not registered in the
network does NOT return success: with an existing network holding no
endpoints, `DeleteEndpoint "ep1"` returns an error, not `.ok`.  The claim
says not-found is swallowed as success. -/
theorem c6_deleteEndpoint_counterexample :
    isErr (driverDeleteEndpoint (.ok []) "ep1" (fun _ => .ok ())) = true ∧
    ¬ driverDeleteEndpoint (.ok []) "ep1" (fun _ => .ok ()) = .ok [] := by
  constructor
  · rfl
  · intro h
    cases h

/-- C6 (amended): for every network and every endpointID not currently
registered in that network, `DeleteEndpoint` returns an error (the
`endpoint does not exist` error from the network, wrapped by the driver). -/
theorem c6_deleteEndpoint_missing_is_error
    (endpoints : List (String × EndpointData)) (id : String)
    (deleteEndpoint : EndpointData → Except String Unit)
    (h : lookupL endpoints id = none) :
    isErr (driverDeleteEndpoint (.ok endpoints) id deleteEndpoint) = true := by
  simp [driverDeleteEndpoint, networkDeleteEndpoint, h, isErr]

/-- Witness for the amended C6 at a concrete network with no endpoints. -/
theorem c6_deleteEndpoint_missing_is_error_witness :
    isErr (driverDeleteEndpoint (.ok []) "ep2" (fun _ => .ok ())) = true :=
  c6_deleteEndpoint_missing_is_error [] "ep2" (fun _ => .ok ()) rfl

/-- C5: for a well-formed run of the flanneld child, a premature exit makes
`startFlannel` fail; an elapsed 1.5-second timer makes it kill the process
and fail; and a successful startup can only happen when the first observed
event was the bootstrap marker, hence some stdout/stderr line contained
`"bootstrap done"`. -/
theorem c5_startFlannel_spec (r : FlanneldRun) (loadEnvFile : Except String Unit)
    (hwf : runWellFormed r) :
    (r.firstEvent = .exitedPrematurely →
      isErr (startFlannel r loadEnvFile).outcome = true) ∧
    (r.firstEvent = .timedOut →
      isErr (startFlannel r loadEnvFile).outcome = true ∧
      (startFlannel r loadEnvFile).killedProcess = true) ∧
    ((startFlannel r loadEnvFile).outcome = .ok () →
      r.firstEvent = .bootstrapDone ∧
      readPipeSignals (r.stdoutLines ++ r.stderrLines) = true) := by
  refine ⟨?_, ?_, ?_⟩
  · intro h
    simp [startFlannel, h, isErr]
  · intro h
    simp [startFlannel, h, isErr]
  · intro h
    cases hev : r.firstEvent with
    | exitedPrematurely => simp [startFlannel, hev] at h
    | timedOut => simp [startFlannel, hev] at h
    | bootstrapDone => exact ⟨rfl, hwf hev⟩

/-- Witness for C5 at a run whose stdout contains the bootstrap marker. -/
theorem c5_startFlannel_spec_witness :
    FlanneldRun.firstEvent ⟨["flanneld: bootstrap done"], [], .bootstrapDone⟩ =
      .bootstrapDone ∧
    readPipeSignals (["flanneld: bootstrap done"] ++ []) = true :=
  (c5_startFlannel_spec ⟨["flanneld: bootstrap done"], [], .bootstrapDone⟩ (.ok ())
    (fun _ => by decide)).2.2 rfl

/-! ## C8 lemmas -/

/-- A successful enumeration returns a subnet whose lease now carries the
requested id, and changed the KV at most by installing that one lease. -/
theorem getNewOrExistingPool_ok_cases (subnets : List String) :
    ∀ (kv : AddressSpaceKV) (id s : String) (kv' : AddressSpaceKV),
    getNewOrExistingPool subnets kv id = .ok (s, kv') →
    lookupL kv' s = some id ∧
    (kv' = kv ∨ (lookupL kv s = none ∧ kv' = setL kv s id)) := by
  induction subnets with
  | nil =>
    intro kv id s kv' h
    cases h
  | cons subnet rest ih =>
    intro kv id s kv' h
    cases hl : lookupL kv subnet with
    | none =>
      simp [getNewOrExistingPool, reservePoolSubnet, hl] at h
      obtain ⟨rfl, rfl⟩ := h
      exact ⟨lookupL_setL_self kv subnet id, Or.inr ⟨hl, rfl⟩⟩
    | some poolID =>
      by_cases hp : poolID = id
      · simp [getNewOrExistingPool, reservePoolSubnet, hl, hp] at h
        obtain ⟨rfl, rfl⟩ := h
        exact ⟨hp ▸ hl, Or.inl rfl⟩
      · simp [getNewOrExistingPool, reservePoolSubnet, hl, hp] at h
        exact ih kv id s kv' h

/-- Re-running the enumeration on the KV produced by a successful run
returns the same subnet and leaves the KV unchanged. -/
theorem getNewOrExistingPool_rerun (subnets : List String) :
    ∀ (kv : AddressSpaceKV) (id s : String) (kv' : AddressSpaceKV),
    getNewOrExistingPool subnets kv id = .ok (s, kv') →
    getNewOrExistingPool subnets kv' id = .ok (s, kv') := by
  induction subnets with
  | nil =>
    intro kv id s kv' h
    cases h
  | cons subnet rest ih =>
    intro kv id s kv' h
    cases hl : lookupL kv subnet with
    | none =>
      simp [getNewOrExistingPool, reservePoolSubnet, hl] at h
      obtain ⟨rfl, rfl⟩ := h
      simp [getNewOrExistingPool, reservePoolSubnet, lookupL_setL_self]
    | some poolID =>
      by_cases hp : poolID = id
      · simp [getNewOrExistingPool, reservePoolSubnet, hl, hp] at h
        obtain ⟨rfl, rfl⟩ := h
        simp [getNewOrExistingPool, reservePoolSubnet, hl, hp]
      · simp [getNewOrExistingPool, reservePoolSubnet, hl, hp] at h
        have hcases := getNewOrExistingPool_ok_cases rest kv id s kv' h
        have hl' : lookupL kv' subnet = some poolID := by
          rcases hcases.2 with hsame | ⟨hnone, hset⟩
          · rw [hsame]
            exact hl
          · have hne : subnet ≠ s := by
              intro he
              rw [he, hnone] at hl
              cases hl
            rw [hset, lookupL_setL_ne kv s subnet id hne]
            exact hl
        have hrest := ih kv id s kv' h
        simp [getNewOrExistingPool, reservePoolSubnet, hl', hp, hrest]

/-- The enumeration fails only when it is exhausted: every candidate
subnet is already leased to a different id. -/
theorem getNewOrExistingPool_error_exhausted (subnets : List String) :
    ∀ (kv : AddressSpaceKV) (id : String),
    isErr (getNewOrExistingPool subnets kv id) = true →
    ∀ s ∈ subnets, ∃ v, lookupL kv s = some v ∧ v ≠ id := by
  induction subnets with
  | nil =>
    intro kv id _ s hs
    cases hs
  | cons subnet rest ih =>
    intro kv id h s hs
    cases hl : lookupL kv subnet with
    | none =>
      simp [getNewOrExistingPool, reservePoolSubnet, hl, isErr] at h
    | some poolID =>
      by_cases hp : poolID = id
      · simp [getNewOrExistingPool, reservePoolSubnet, hl, hp, isErr] at h
      · simp [getNewOrExistingPool, reservePoolSubnet, hl, hp] at h
        cases hs with
        | head => exact ⟨poolID, hl, hp⟩
        | tail _ hmem => exact ih kv id h s hmem

/-- C8: repeated pool requests for the same flannel id return the same
pool subnet: a successful enumeration leaves the lease `subnet ← id` in
the KV, running it again reuses that lease and returns the same subnet
with the KV unchanged, and the enumeration fails only when every candidate
subnet is already leased to a different id. -/
theorem c8_getNewOrExistingPool_idempotent (subnets : List String)
    (kv : AddressSpaceKV) (id : String) :
    (∀ s kv', getNewOrExistingPool subnets kv id = .ok (s, kv') →
      lookupL kv' s = some id ∧
      getNewOrExistingPool subnets kv' id = .ok (s, kv')) ∧
    (isErr (getNewOrExistingPool subnets kv id) = true →
      ∀ s ∈ subnets, ∃ v, lookupL kv s = some v ∧ v ≠ id) := by
  constructor
  · intro s kv' h
    exact ⟨(getNewOrExistingPool_ok_cases subnets kv id s kv' h).1,
      getNewOrExistingPool_rerun subnets kv id s kv' h⟩
  · exact getNewOrExistingPool_error_exhausted subnets kv id

/-- Witness for C8: with the first candidate already leased to another
network, the request leases the second candidate and re-running returns it
again unchanged. -/
theorem c8_getNewOrExistingPool_idempotent_witness :
    lookupL (setL [("10.1.0.0-20", "other")] "10.2.0.0-20" "net1") "10.2.0.0-20" =
      some "net1" ∧
    getNewOrExistingPool ["10.1.0.0-20", "10.2.0.0-20"]
        (setL [("10.1.0.0-20", "other")] "10.2.0.0-20" "net1") "net1" =
      .ok ("10.2.0.0-20", setL [("10.1.0.0-20", "other")] "10.2.0.0-20" "net1") :=
  (c8_getNewOrExistingPool_idempotent ["10.1.0.0-20", "10.2.0.0-20"]
      [("10.1.0.0-20", "other")] "net1").1
    "10.2.0.0-20" (setL [("10.1.0.0-20", "other")] "10.2.0.0-20" "net1") rfl

/-! ## C4 lemmas -/

/-- Unfolding lemma for one attempt of the fwmark loop. -/
theorem generateFWMARKLoop_succ (serviceID : String) (existingFWMARKs : List Nat)
    (fuel : Nat) (currentName : String) (suffixes : List String) :
    generateFWMARKLoop serviceID existingFWMARKs (fuel + 1) currentName suffixes =
      (if existingFWMARKs.contains (crc32 currentName) then
        match suffixes with
        | [] => .error "failed to generate random suffix"
        | s :: rest =>
          generateFWMARKLoop serviceID existingFWMARKs fuel (serviceID ++ "_" ++ s) rest
      else .ok (crc32 currentName)) :=
  rfl

/-- Shape of a successful fwmark generation: the produced fwmark collides
with no existing one, and is the hash of either the starting name or of
`serviceID ++ "_" ++ s` for one of the supplied random suffixes. -/
theorem generateFWMARKLoop_ok_shape (serviceID : String) (existingFWMARKs : List Nat) :
    ∀ (fuel : Nat) (currentName : String) (suffixes : List String) (fw : Nat),
    generateFWMARKLoop serviceID existingFWMARKs fuel currentName suffixes = .ok fw →
    existingFWMARKs.contains fw = false ∧
    (fw = crc32 currentName ∨ ∃ s ∈ suffixes, fw = crc32 (serviceID ++ "_" ++ s)) := by
  intro fuel
  induction fuel with
  | zero =>
    intro currentName suffixes fw h
    cases h
  | succ n ih =>
    intro currentName suffixes fw h
    rw [generateFWMARKLoop_succ] at h
    cases hc : existingFWMARKs.contains (crc32 currentName) with
    | true =>
      rw [hc, if_pos rfl] at h
      cases suffixes with
      | nil => cases h
      | cons s rest =>
        obtain ⟨hfree, hform⟩ := ih (serviceID ++ "_" ++ s) rest fw h
        refine ⟨hfree, Or.inr ?_⟩
        cases hform with
        | inl he => exact ⟨s, List.mem_cons_self s rest, he⟩
        | inr hex =>
          obtain ⟨s', hs', he⟩ := hex
          exact ⟨s', List.mem_cons_of_mem s hs', he⟩
    | false =>
      rw [hc, if_neg (fun hx => nomatch hx)] at h
      cases h
      exact ⟨hc, Or.inl rfl⟩

set_option maxRecDepth 100000

/-- C4 (counterexample): with serviceID `a`, networkID `b`, the already
reserved fwmark CRC32(`a-b`) = 901915294 and the random suffix `00000000`,
the source re-hashes `a_00000000` (yielding 3580812277) while the claim
prescribes re-hashing the serviceID-networkID combination `a-b_00000000`
(yielding 1492724824); the handed-out fwmark differs from the claim's. -/
theorem c4_generateFWMARK_counterexample :
    generateFWMARK "a" "b" [901915294] ["00000000"] = .ok 3580812277 ∧
    generateFWMARKClaim "a" "b" [901915294] ["00000000"] = .ok 1492724824 ∧
    crc32 ("a" ++ "-" ++ "b") = 901915294 ∧
    crc32 ("a" ++ "_" ++ "00000000") = 3580812277 ∧
    crc32 ("a" ++ "-" ++ "b" ++ "_" ++ "00000000") = 1492724824 ∧
    (3580812277 : Nat) ≠ 1492724824 :=
  ⟨rfl, rfl, rfl, rfl, rfl, by decide⟩

/-- C4 (amended): for a (serviceID, networkID) pair with no existing
by-service entry, a successful `Get` hands out CRC32(serviceID-networkID)
when that value collides with no reserved fwmark; on a collision it hands
out CRC32 of the serviceID with a random 4-byte hex suffix appended after
an underscore (the networkID is dropped on retry); the result never
collides with an already-reserved fwmark; and the two KV entries
(serviceID → fwmark, fwmark → serviceID) are both present in the state
produced by the single committing transaction. -/
theorem c4_fwmarksGet_fresh (st : FwmarksNetworkKV) (serviceID networkID : String)
    (suffixes : List String) (fw : Nat) (st' : FwmarksNetworkKV)
    (hfresh : lookupL st.byService serviceID = none)
    (h : fwmarksGet st serviceID networkID suffixes = .ok (fw, st')) :
    ((keysL st.listEntries).contains (crc32 (serviceID ++ "-" ++ networkID)) = false →
      fw = crc32 (serviceID ++ "-" ++ networkID)) ∧
    ((keysL st.listEntries).contains (crc32 (serviceID ++ "-" ++ networkID)) = true →
      ∃ s ∈ suffixes, fw = crc32 (serviceID ++ "_" ++ s)) ∧
    (keysL st.listEntries).contains fw = false ∧
    lookupL st'.byService serviceID = some fw ∧
    lookupL st'.listEntries fw = some serviceID := by
  cases hg : generateFWMARK serviceID networkID (keysL st.listEntries) suffixes with
  | error e =>
    simp [fwmarksGet, hfresh, hg] at h
  | ok fw0 =>
    simp only [fwmarksGet, hfresh, hg, Except.ok.injEq, Prod.mk.injEq] at h
    obtain ⟨rfl, rfl⟩ := h
    have hshape := generateFWMARKLoop_ok_shape serviceID (keysL st.listEntries)
      maxAttempts (serviceID ++ "-" ++ networkID) suffixes fw0 hg
    refine ⟨?_, ?_, hshape.1, lookupL_setL_self _ _ _, lookupL_setL_self _ _ _⟩
    · intro hnc
      cases hshape.2 with
      | inl he => exact he
      | inr hex =>
        have hstep := generateFWMARKLoop_succ serviceID (keysL st.listEntries)
          999 (serviceID ++ "-" ++ networkID) suffixes
        have hg' := hg
        unfold generateFWMARK at hg'
        rw [show maxAttempts = 999 + 1 from rfl, hstep, hnc,
          if_neg (fun hx => nomatch hx)] at hg'
        cases hg'
        rfl
    · intro hcol
      cases hshape.2 with
      | inl he =>
        rw [he] at hshape
        rw [hshape.1] at hcol
        cases hcol
      | inr hex => exact hex

/-! ## C3 theorem -/

/-- C3: `ReleaseIP` errors on an IP that is not in the pool's in-memory
`reservedIPs`; and when the compare-and-delete against the KV succeeds,
it removes the IP from `reservedIPs` and inserts it into `unusedIPs` with
`freedAt = now`. -/
theorem c3_releaseIP_spec (p : PoolState) (kv : ReservationsKV) (ip now : Nat) :
    (lookupL p.reservedIPs ip = none → isErr (releaseIP p kv ip now).1 = true) ∧
    (∀ r, lookupL p.reservedIPs ip = some r →
      (releaseReservation kv r).1.Success = true →
      (releaseIP p kv ip now).1 = .ok () ∧
      lookupL (releaseIP p kv ip now).2.1.reservedIPs ip = none ∧
      lookupL (releaseIP p kv ip now).2.1.unusedIPs ip = some now) := by
  constructor
  · intro h
    simp [releaseIP, h, isErr]
  · intro r hr hs
    refine ⟨?_, ?_, ?_⟩ <;>
      simp [releaseIP, hr, hs, lookupL_eraseL_self, lookupL_setL_self]

/-- Witness for C3: releasing a reserved IP 5 at time 7 succeeds and moves
it from `reservedIPs` to `unusedIPs` with `freedAt = 7`. -/
theorem c3_releaseIP_spec_witness :
    (releaseIP
        { subnetBase := 0, subnetSize := 8, allIPs := [1, 2, 3, 4, 5],
          reservedIPs := [(5, { ip := 5, reservationType := "container-ip",
                                reservedAt := 0, mac := "m" })],
          unusedIPs := [] }
        [(5, { ip := 5, reservationType := "container-ip", reservedAt := 0, mac := "m" })]
        5 7).1 = .ok () ∧
    lookupL (releaseIP
        { subnetBase := 0, subnetSize := 8, allIPs := [1, 2, 3, 4, 5],
          reservedIPs := [(5, { ip := 5, reservationType := "container-ip",
                                reservedAt := 0, mac := "m" })],
          unusedIPs := [] }
        [(5, { ip := 5, reservationType := "container-ip", reservedAt := 0, mac := "m" })]
        5 7).2.1.reservedIPs 5 = none ∧
    lookupL (releaseIP
        { subnetBase := 0, subnetSize := 8, allIPs := [1, 2, 3, 4, 5],
          reservedIPs := [(5, { ip := 5, reservationType := "container-ip",
                                reservedAt := 0, mac := "m" })],
          unusedIPs := [] }
        [(5, { ip := 5, reservationType := "container-ip", reservedAt := 0, mac := "m" })]
        5 7).2.1.unusedIPs 5 = some 7 :=
  (c3_releaseIP_spec
      { subnetBase := 0, subnetSize := 8, allIPs := [1, 2, 3, 4, 5],
        reservedIPs := [(5, { ip := 5, reservationType := "container-ip",
                              reservedAt := 0, mac := "m" })],
        unusedIPs := [] }
      [(5, { ip := 5, reservationType := "container-ip", reservedAt := 0, mac := "m" })]
      5 7).2
    { ip := 5, reservationType := "container-ip", reservedAt := 0, mac := "m" } rfl rfl

/-! ## C10 lemmas and theorem -/

/-- Case 1 of the candidate fetch: some IPs are stale (freed more than
five minutes ago); exactly those are returned, the pool untouched. -/
theorem getAvailableUnusedIPs_stale (p : PoolState) (kv : ReservationsKV) (now : Nat)
    (h : staleUnusedIPs p now ≠ []) :
    getAvailableUnusedIPs p kv now = .ok (staleUnusedIPs p now, p) := by
  have hlen : ¬ (staleUnusedIPs p now).length = 0 := by
    simpa [List.length_eq_zero] using h
  simp only [getAvailableUnusedIPs]
  rw [if_neg hlen, if_neg hlen]

/-- Case 2: no stale IP, but `unusedIPs` is non-empty; all its keys are
returned, the pool untouched. -/
theorem getAvailableUnusedIPs_all (p : PoolState) (kv : ReservationsKV) (now : Nat)
    (h1 : staleUnusedIPs p now = []) (h2 : keysL p.unusedIPs ≠ []) :
    getAvailableUnusedIPs p kv now = .ok (keysL p.unusedIPs, p) := by
  have hlen1 : (staleUnusedIPs p now).length = 0 := by
    simp [h1]
  have hlen2 : ¬ (keysL p.unusedIPs).length = 0 := by
    simpa [List.length_eq_zero] using h2
  simp only [getAvailableUnusedIPs]
  rw [if_pos hlen1, if_neg hlen2]

/-- Case 3: `unusedIPs` is empty; the pool is re-synced from the KV, whose
unused set is returned when non-empty, with failure otherwise. -/
theorem getAvailableUnusedIPs_resync (p : PoolState) (kv : ReservationsKV) (now : Nat)
    (h1 : p.unusedIPs = []) :
    (keysL (syncIPs p kv now).unusedIPs ≠ [] →
      getAvailableUnusedIPs p kv now =
        .ok (keysL (syncIPs p kv now).unusedIPs, syncIPs p kv now)) ∧
    (keysL (syncIPs p kv now).unusedIPs = [] →
      isErr (getAvailableUnusedIPs p kv now) = true) := by
  have hstale : (staleUnusedIPs p now).length = 0 := by
    simp [staleUnusedIPs, h1]
  have hkeys : (keysL p.unusedIPs).length = 0 := by
    simp [keysL, h1]
  constructor
  · intro h2
    have hlen2 : ¬ (keysL (syncIPs p kv now).unusedIPs).length = 0 := by
      simpa [List.length_eq_zero] using h2
    simp only [getAvailableUnusedIPs]
    rw [if_pos hstale, if_pos hkeys, if_neg hlen2]
  · intro h2
    have hlen2 : (keysL (syncIPs p kv now).unusedIPs).length = 0 := by
      simp [h2]
    simp only [getAvailableUnusedIPs]
    rw [if_pos hstale, if_pos hkeys, if_pos hlen2]
    rfl

/-- A successful candidate fetch never returns an empty list. -/
theorem getAvailableUnusedIPs_ok_pos (p : PoolState) (kv : ReservationsKV)
    (now : Nat) (l : List Nat) (p' : PoolState)
    (h : getAvailableUnusedIPs p kv now = .ok (l, p')) : 0 < l.length := by
  by_cases hs : staleUnusedIPs p now = []
  · by_cases hk : keysL p.unusedIPs = []
    · have hu : p.unusedIPs = [] := by
        cases hul : p.unusedIPs with
        | nil => rfl
        | cons a rest =>
          rw [hul] at hk
          simp [keysL] at hk
      by_cases hk2 : keysL (syncIPs p kv now).unusedIPs = []
      · have herr := (getAvailableUnusedIPs_resync p kv now hu).2 hk2
        rw [h] at herr
        simp [isErr] at herr
      · rw [(getAvailableUnusedIPs_resync p kv now hu).1 hk2] at h
        obtain ⟨rfl, rfl⟩ := by
          simpa using h
        simpa [List.length_pos] using hk2
    · rw [getAvailableUnusedIPs_all p kv now hs hk] at h
      obtain ⟨rfl, rfl⟩ := by
        simpa using h
      simpa [List.length_pos] using hk
  · rw [getAvailableUnusedIPs_stale p kv now hs] at h
    obtain ⟨rfl, rfl⟩ := by
      simpa using h
    simpa [List.length_pos] using hs

/-- The error wrapped around a failed candidate fetch is never the Intn
panic message (their lengths differ). -/
theorem wrappedAvailErr_ne_panic (e : String) :
    ("Error getting available unused IPs: " ++ e) ≠ intnPanicMsg := by
  intro hcontra
  have hd := congrArg String.data hcontra
  rw [String.data_append] at hd
  have hl := congrArg List.length hd
  rw [List.length_append] at hl
  have h1 : ("Error getting available unused IPs: " : String).data.length = 36 := by decide
  have h2 : intnPanicMsg.data.length = 31 := by decide
  omega

/-- The allocation loop never evaluates `rand.Intn` on an empty candidate
list: its result is never the Intn panic. -/
theorem allocateIPLoop_ne_panic (allocationType mac : String) (random : Bool)
    (rand : Nat → Nat) (now : Nat) :
    ∀ (fuel : Nat) (p : PoolState) (kv : ReservationsKV),
    allocateIPLoop allocationType mac random rand now fuel p kv ≠ .error intnPanicMsg := by
  intro fuel
  induction fuel with
  | zero =>
    intro p kv
    simp [allocateIPLoop, intnPanicMsg]
  | succ n ih =>
    intro p kv
    cases hava : getAvailableUnusedIPs p kv now with
    | error e =>
      simp only [allocateIPLoop, hava]
      intro hcontra
      exact wrappedAvailErr_ne_panic e (by injection hcontra)
    | ok pr =>
      obtain ⟨avail, p1⟩ := pr
      have hpos := getAvailableUnusedIPs_ok_pos p kv now avail p1 hava
      have hintn : intn avail.length (rand n) = .ok (rand n % avail.length) := by
        unfold intn
        rw [if_neg (Nat.pos_iff_ne_zero.mp hpos)]
      simp only [allocateIPLoop, hava]
      intro hcontra
      split at hcontra
      · rename_i e heq
        cases random with
        | true =>
          simp only [if_pos rfl, hintn] at heq
          cases heq
        | false =>
          cases avail with
          | nil => simp at hpos
          | cons a rest => simp [getNextAvailableIP] at heq
      · split at hcontra
        · exact Except.noConfusion hcontra
        · exact ih p1 _ hcontra

/-- C10: whenever `AllocateIP` reaches the candidate-pick step,
`getAvailableUnusedIPs` has returned either an error or a non-empty list,
so `rand.Intn(len(availableUnusedIPs))` is never evaluated at zero: on no
pool state and no input does `AllocateIP` produce the Intn panic. -/
theorem c10_allocateIP_no_intn_panic (p : PoolState) (kv : ReservationsKV) (now : Nat) :
    (∀ l p', getAvailableUnusedIPs p kv now = .ok (l, p') → 0 < l.length) ∧
    (∀ preferredIP mac allocationType random rand fuel,
      allocateIP p kv preferredIP mac allocationType random rand now fuel ≠
        .error intnPanicMsg) := by
  constructor
  · intro l p' h
    exact getAvailableUnusedIPs_ok_pos p kv now l p' h
  · intro preferredIP mac allocationType random rand fuel
    cases preferredIP with
    | none => exact allocateIPLoop_ne_panic allocationType mac random rand now fuel p kv
    | some reservedIP =>
      by_cases hcond : (mac ≠ "" ∧ allocationType = reservationTypeContainerIP) ∨
          allocationType = reservationTypeServiceVIP
      · cases hsub : subnetContains p.subnetBase p.subnetSize reservedIP with
        | true =>
          cases hatt : (allocateReservedIP kv reservedIP allocationType mac now).1.Success with
          | true => simp [allocateIP, hcond, hsub, hatt]
          | false =>
            simp only [allocateIP, if_pos hcond, hsub, if_pos rfl, hatt,
              Bool.false_eq_true, if_false]
            exact allocateIPLoop_ne_panic allocationType mac random rand now fuel p _
        | false =>
          simp only [allocateIP, if_pos hcond, hsub, Bool.false_eq_true, if_false]
          exact allocateIPLoop_ne_panic allocationType mac random rand now fuel p kv
      · simp only [allocateIP, if_neg hcond]
        exact allocateIPLoop_ne_panic allocationType mac random rand now fuel p kv

/-- Witness for C10 at a concrete pool with one stale unused IP. -/
theorem c10_allocateIP_no_intn_panic_witness :
    0 < [3].length ∧
    allocateIP
        { subnetBase := 0, subnetSize := 8, allIPs := [1, 2, 3],
          reservedIPs := [], unusedIPs := [(3, 0)] }
        [] none "" "reserved" true (fun _ => 0) 1000 3 ≠ .error intnPanicMsg :=
  ⟨(c10_allocateIP_no_intn_panic
      { subnetBase := 0, subnetSize := 8, allIPs := [1, 2, 3],
        reservedIPs := [], unusedIPs := [(3, 0)] }
      [] 1000).1 [3]
      { subnetBase := 0, subnetSize := 8, allIPs := [1, 2, 3],
        reservedIPs := [], unusedIPs := [(3, 0)] } rfl,
    (c10_allocateIP_no_intn_panic
      { subnetBase := 0, subnetSize := 8, allIPs := [1, 2, 3],
        reservedIPs := [], unusedIPs := [(3, 0)] }
      [] 1000).2 none "" "reserved" true (fun _ => 0) 3⟩

/-! ## C2 lemmas and theorem -/

/-- `List.getD` at an index below the length is a member. -/
theorem getD_mem_of_lt (l : List Nat) (i d : Nat) (h : i < l.length) :
    l.getD i d ∈ l := by
  rw [List.getD_eq_getElem l d h]
  exact List.getElem_mem h

/-- A left fold of `Nat.min` stays among the folded elements. -/
theorem foldl_min_mem (rest : List Nat) (a : Nat) :
    rest.foldl Nat.min a ∈ a :: rest := by
  induction rest generalizing a with
  | nil => simp
  | cons b rest ih =>
    rw [List.foldl_cons]
    rcases List.mem_cons.mp (ih (Nat.min a b)) with h | h
    · rw [h]
      have hchoice : a.min b = a ∨ a.min b = b := by
        rcases Nat.le_total a b with hle | hle
        · exact Or.inl (Nat.min_eq_left hle)
        · exact Or.inr (Nat.min_eq_right hle)
      rcases hchoice with hc | hc
      · rw [hc]
        exact List.mem_cons_self a (b :: rest)
      · rw [hc]
        exact List.mem_cons_of_mem a (List.mem_cons_self b rest)
    · exact List.mem_cons_of_mem a (List.mem_cons_of_mem b h)

/-- In a map whose keys are nodup, a member pair is what lookup returns. -/
theorem lookupL_eq_of_mem {K V : Type} [DecidableEq K] (m : List (K × V)) (k : K) (v : V)
    (hmem : (k, v) ∈ m) (hnodup : (keysL m).Nodup) : lookupL m k = some v := by
  induction m with
  | nil => cases hmem
  | cons p rest ih =>
    obtain ⟨k0, v0⟩ := p
    have hnodup' := hnodup
    rw [show keysL ((k0, v0) :: rest) = k0 :: keysL rest from rfl,
      List.nodup_cons] at hnodup'
    rcases List.mem_cons.mp hmem with h | h
    · cases h
      simp [lookupL]
    · have hk0 : ¬ k0 = k := by
        intro he
        subst he
        exact hnodup'.1 (List.mem_map.mpr ⟨(k0, v), h, rfl⟩)
      simp only [lookupL, if_neg hk0]
      exact ih h hnodup'.2

/-- A successful conditional reservation reserves exactly the requested IP. -/
theorem reserveIP_success_ip (kv : ReservationsKV) (ip : Nat)
    (allocationType mac : String) (now : Nat)
    (h : (reserveIP kv ip allocationType mac now).1.Success = true) :
    (reserveIP kv ip allocationType mac now).1.reservation.ip = ip := by
  cases hl : lookupL kv ip with
  | some existing => simp [reserveIP, hl] at h
  | none => simp [reserveIP, hl]

/-- While stale candidates exist, every IP the allocation loop hands out
is one of them. -/
theorem allocateIPLoop_result_mem_stale (allocationType mac : String) (random : Bool)
    (rand : Nat → Nat) (now : Nat) (p : PoolState) (hst : staleUnusedIPs p now ≠ []) :
    ∀ (fuel : Nat) (kv : ReservationsKV) (res : Nat × PoolState × ReservationsKV),
    allocateIPLoop allocationType mac random rand now fuel p kv = .ok res →
    res.1 ∈ staleUnusedIPs p now := by
  have hpos : 0 < (staleUnusedIPs p now).length := List.length_pos.mpr hst
  intro fuel
  induction fuel with
  | zero =>
    intro kv res h
    cases h
  | succ n ih =>
    intro kv res h
    simp only [allocateIPLoop, getAvailableUnusedIPs_stale p kv now hst] at h
    split at h
    · cases h
    · rename_i ip heq
      have hip : ip ∈ staleUnusedIPs p now := by
        cases random with
        | true =>
          have hintn : intn (staleUnusedIPs p now).length (rand n) =
              .ok (rand n % (staleUnusedIPs p now).length) := by
            unfold intn
            rw [if_neg (Nat.pos_iff_ne_zero.mp hpos)]
          simp only [if_pos rfl, hintn] at heq
          obtain rfl : (staleUnusedIPs p now).getD
              (rand n % (staleUnusedIPs p now).length) 0 = ip := by
            simpa using heq
          exact getD_mem_of_lt _ _ _ (Nat.mod_lt _ hpos)
        | false =>
          obtain ⟨a, rest, hsl⟩ : ∃ a rest, staleUnusedIPs p now = a :: rest := by
            cases hcase : staleUnusedIPs p now with
            | nil => exact absurd hcase hst
            | cons x xs => exact ⟨x, xs, rfl⟩
          rw [hsl] at heq
          simp [getNextAvailableIP] at heq
          rw [hsl, ← heq]
          exact foldl_min_mem rest a
      split at h
      · rename_i hsucc
        cases h
        simpa [reserveIP_success_ip kv ip allocationType mac now hsucc] using hip
      · exact ih _ res h

/-- C2: with no preferred-IP re-reservation, the candidate set is exactly
the unused IPs freed more than five minutes ago; when that is empty, all
of `unusedIPs`; when that is empty, the pool is re-synced from the KV and
all of the rebuilt `unusedIPs` taken; failure only when that is still
empty.  Consequently, while a stale candidate exists, an IP freed less
than five minutes ago is never returned by `AllocateIP`. -/
theorem c2_allocateIP_candidate_selection (p : PoolState) (kv : ReservationsKV)
    (now : Nat) :
    (staleUnusedIPs p now ≠ [] →
      getAvailableUnusedIPs p kv now = .ok (staleUnusedIPs p now, p)) ∧
    (staleUnusedIPs p now = [] → keysL p.unusedIPs ≠ [] →
      getAvailableUnusedIPs p kv now = .ok (keysL p.unusedIPs, p)) ∧
    (p.unusedIPs = [] →
      (keysL (syncIPs p kv now).unusedIPs ≠ [] →
        getAvailableUnusedIPs p kv now =
          .ok (keysL (syncIPs p kv now).unusedIPs, syncIPs p kv now)) ∧
      (keysL (syncIPs p kv now).unusedIPs = [] →
        isErr (getAvailableUnusedIPs p kv now) = true)) ∧
    (∀ mac allocationType random rand fuel ip freedAt
        (res : Nat × PoolState × ReservationsKV),
      (keysL p.unusedIPs).Nodup →
      (ip, freedAt) ∈ p.unusedIPs →
      ¬ (freedAt + fiveMinutes < now) →
      staleUnusedIPs p now ≠ [] →
      allocateIP p kv none mac allocationType random rand now fuel = .ok res →
      res.1 ≠ ip) := by
  refine ⟨getAvailableUnusedIPs_stale p kv now,
    getAvailableUnusedIPs_all p kv now,
    getAvailableUnusedIPs_resync p kv now, ?_⟩
  intro mac allocationType random rand fuel ip freedAt res hnodup hmem hrecent hst halloc
  have hloop : allocateIPLoop allocationType mac random rand now fuel p kv = .ok res := by
    simpa [allocateIP] using halloc
  have hmemstale :=
    allocateIPLoop_result_mem_stale allocationType mac random rand now p hst fuel kv
      res hloop
  intro heqip
  rw [heqip] at hmemstale
  obtain ⟨pr, hprmem, hpr1⟩ := List.mem_map.mp hmemstale
  have hprfilter := List.mem_filter.mp hprmem
  have hlk1 : lookupL p.unusedIPs pr.1 = some pr.2 :=
    lookupL_eq_of_mem p.unusedIPs pr.1 pr.2 hprfilter.1 hnodup
  have hlk2 : lookupL p.unusedIPs ip = some freedAt :=
    lookupL_eq_of_mem p.unusedIPs ip freedAt hmem hnodup
  rw [hpr1, hlk2] at hlk1
  have hpr2 : pr.2 = freedAt := by
    injection hlk1.symm
  have hstale2 : pr.2 + fiveMinutes < now := of_decide_eq_true hprfilter.2
  rw [hpr2] at hstale2
  exact hrecent hstale2

/-- Witness for C2: with unused IPs 1 (freed at 0, stale at now = 350)
and 2 (freed at 100, recent), a random allocation returns IP 1, not the
recently freed 2. -/
theorem c2_allocateIP_candidate_selection_witness :
    ((1 : Nat),
      ({ subnetBase := 0, subnetSize := 8, allIPs := [1, 2],
         reservedIPs := [(1, { ip := 1, reservationType := "reserved",
                               reservedAt := 350, mac := "" })],
         unusedIPs := [(2, 100)] } : PoolState),
      ([(1, { ip := 1, reservationType := "reserved", reservedAt := 350,
              mac := "" })] : ReservationsKV)).1 ≠ 2 :=
  (c2_allocateIP_candidate_selection
      { subnetBase := 0, subnetSize := 8, allIPs := [1, 2],
        reservedIPs := [], unusedIPs := [(1, 0), (2, 100)] }
      [] 350).2.2.2 "" "reserved" true (fun _ => 0) 2 2 100 _
    (by decide) (by decide) (by decide) (by decide) rfl

/-- Witness for the amended C4 at a concrete fresh state with a forced
collision. -/
theorem c4_fwmarksGet_fresh_witness :
    (∃ s ∈ ["00000000"], (3580812277 : Nat) = crc32 ("a" ++ "_" ++ s)) ∧
    lookupL (setL ([] : List (String × Nat)) "a" 3580812277) "a" = some 3580812277 :=
  have happ := c4_fwmarksGet_fresh
    { listEntries := [(901915294, "svc0")], byService := [] } "a" "b" ["00000000"]
    3580812277
    { listEntries := setL [(901915294, "svc0")] 3580812277 "a",
      byService := setL [] "a" 3580812277 }
    rfl rfl
  ⟨happ.2.1 rfl, happ.2.2.2.1⟩

/-! ## C9 lemmas -/

/-- Membership in `setL` is the new pair or an old pair at another key. -/
theorem mem_setL_elim {K V : Type} [DecidableEq K] {m : List (K × V)} {k : K} {v : V}
    {p : K × V} (h : p ∈ setL m k v) : p = (k, v) ∨ (p ∈ m ∧ ¬ p.1 = k) := by
  rcases List.mem_cons.mp h with h1 | h1
  · exact Or.inl h1
  · have h1' := List.mem_filter.mp
      (show p ∈ m.filter (fun q => decide (¬ q.1 = k)) from h1)
    exact Or.inr ⟨h1'.1, of_decide_eq_true h1'.2⟩

/-- `setL` keeps the key list nodup. -/
theorem nodup_keysL_setL {K V : Type} [DecidableEq K] (m : List (K × V)) (k : K) (v : V)
    (h : (keysL m).Nodup) : (keysL (setL m k v)).Nodup := by
  show (k :: keysL (eraseL m k)).Nodup
  rw [List.nodup_cons]
  constructor
  · intro hmem
    obtain ⟨p, hp, hpk⟩ := List.mem_map.mp hmem
    have hp' := List.mem_filter.mp
      (show p ∈ m.filter (fun q => decide (¬ q.1 = k)) from hp)
    exact of_decide_eq_true hp'.2 hpk
  · exact List.Nodup.sublist ((List.filter_sublist m).map Prod.fst) h

/-- Erasing twice is erasing once. -/
theorem eraseL_idem {K V : Type} [DecidableEq K] (m : List (K × V)) (k : K) :
    eraseL (eraseL m k) k = eraseL m k := by
  induction m with
  | nil => rfl
  | cons p rest ih =>
    obtain ⟨k0, v0⟩ := p
    by_cases hk : k0 = k
    · rw [eraseL_cons_self k0 v0 rest k hk, ih]
    · rw [eraseL_cons_ne k0 v0 rest k hk, eraseL_cons_ne k0 v0 (eraseL rest k) k hk, ih]

/-- Overwriting the same key twice equals overwriting once. -/
theorem setL_setL_self {K V : Type} [DecidableEq K] (m : List (K × V)) (k : K) (v : V) :
    setL (setL m k v) k v = setL m k v := by
  show (k, v) :: eraseL ((k, v) :: eraseL m k) k = (k, v) :: eraseL m k
  rw [eraseL_cons_self k v (eraseL m k) k rfl, eraseL_idem]

/-- The internal-state component of `syncToInternalState` is the clone of
the truth installed at the shard key. -/
theorem syncToInternalState_state {T : Type} (eq : T → T → Bool)
    (st : ShardedData T) (sk : String) (truth : ShardMap T) :
    (syncToInternalState eq st sk truth).2.2.2 = setL st sk truth :=
  rfl

/-- Diffing a shard against the identical stored shard yields no changes,
no additions, no removals (items compare equal under a reflexive `Equals`). -/
theorem syncToInternalState_self {T : Type} (eq : T → T → Bool) (st : ShardedData T)
    (sk : String) (truth : ShardMap T) (hrefl : ∀ a, eq a a = true)
    (hnodup : (keysL truth).Nodup) (hst : lookupL st sk = some truth) :
    syncToInternalState eq st sk truth = ([], [], [], setL st sk truth) := by
  simp only [syncToInternalState, hst, Option.getD_some, Prod.mk.injEq]
  refine ⟨?_, ?_, ?_, trivial⟩
  · rw [List.filterMap_eq_nil_iff]
    intro pr hpr
    obtain ⟨a, b⟩ := pr
    rw [lookupL_eq_of_mem truth a b hpr hnodup]
    simp [hrefl b]
  · rw [List.filterMap_eq_nil_iff]
    intro pr hpr
    obtain ⟨a, b⟩ := pr
    rw [lookupL_eq_of_mem truth a b hpr hnodup]
  · rw [List.map_eq_nil_iff, List.filter_eq_nil_iff]
    intro pr hpr
    obtain ⟨a, b⟩ := pr
    rw [lookupL_eq_of_mem truth a b hpr hnodup]
    simp

/-- The shard loop leaves the stored local shard untouched. -/
theorem syncShards_state_localKey {T : Type} (eq : T → T → Bool)
    (localShardKey : String) (truth : ShardMap T) :
    ∀ (entries : List (String × ShardMap T)) (st etcd : ShardedData T),
    lookupL (syncShards eq localShardKey truth entries st etcd).2.2.2.1 localShardKey =
      lookupL st localShardKey := by
  intro entries
  induction entries with
  | nil => intro st etcd; rfl
  | cons e rest ih =>
    obtain ⟨sk0, items0⟩ := e
    intro st etcd
    by_cases hsk0 : sk0 = localShardKey
    · simp only [syncShards, if_pos hsk0]
      exact ih st _
    · simp only [syncShards, if_neg hsk0, syncToInternalState_state]
      rw [ih _ _]
      exact lookupL_setL_ne st sk0 localShardKey items0 (fun he => hsk0 he.symm)

/-- The shard loop does not touch shards whose key is not among the
processed entries. -/
theorem syncShards_state_untouched {T : Type} (eq : T → T → Bool)
    (localShardKey : String) (truth : ShardMap T) :
    ∀ (entries : List (String × ShardMap T)) (st etcd : ShardedData T) (sk : String),
    sk ∉ keysL entries →
    lookupL (syncShards eq localShardKey truth entries st etcd).2.2.2.1 sk =
      lookupL st sk := by
  intro entries
  induction entries with
  | nil => intro st etcd sk _; rfl
  | cons e rest ih =>
    obtain ⟨sk0, items0⟩ := e
    intro st etcd sk hsk
    have hne : sk ≠ sk0 := by
      intro he
      exact hsk (he ▸ List.mem_cons_self sk0 (keysL rest))
    have hrest : sk ∉ keysL rest := by
      intro hmem
      exact hsk (List.mem_cons_of_mem sk0 hmem)
    by_cases hsk0 : sk0 = localShardKey
    · simp only [syncShards, if_pos hsk0]
      exact ih st _ sk hrest
    · simp only [syncShards, if_neg hsk0, syncToInternalState_state]
      rw [ih _ _ sk hrest]
      exact lookupL_setL_ne st sk0 sk items0 hne

/-- After the shard loop, every non-local shard read from etcd is stored
verbatim in the internal state. -/
theorem syncShards_state_mem {T : Type} (eq : T → T → Bool)
    (localShardKey : String) (truth : ShardMap T) :
    ∀ (entries : List (String × ShardMap T)) (st etcd : ShardedData T),
    (keysL entries).Nodup →
    ∀ sk items, (sk, items) ∈ entries → sk ≠ localShardKey →
    lookupL (syncShards eq localShardKey truth entries st etcd).2.2.2.1 sk =
      some items := by
  intro entries
  induction entries with
  | nil =>
    intro st etcd _ sk items hmem
    cases hmem
  | cons e rest ih =>
    obtain ⟨sk0, items0⟩ := e
    intro st etcd hN sk items hmem hne
    rw [show keysL ((sk0, items0) :: rest) = sk0 :: keysL rest from rfl,
      List.nodup_cons] at hN
    by_cases hsk0 : sk0 = localShardKey
    · simp only [syncShards, if_pos hsk0]
      rcases List.mem_cons.mp hmem with h1 | h1
      · injection h1 with h1a h1b
        subst h1a
        exact absurd hsk0 hne
      · exact ih st _ hN.2 sk items h1 hne
    · simp only [syncShards, if_neg hsk0, syncToInternalState_state]
      rcases List.mem_cons.mp hmem with h1 | h1
      · injection h1 with h1a h1b
        subst h1a
        subst h1b
        rw [syncShards_state_untouched eq localShardKey truth rest _ _ sk hN.1]
        exact lookupL_setL_self st sk items
      · exact ih _ _ hN.2 sk items h1 hne

/-- After the shard loop, etcd either had its local shard replaced by the
truth or is unchanged. -/
theorem syncShards_etcd {T : Type} (eq : T → T → Bool) (localShardKey : String)
    (truth : ShardMap T) :
    ∀ (entries : List (String × ShardMap T)) (st etcd : ShardedData T),
    (syncShards eq localShardKey truth entries st etcd).2.2.2.2 =
        setL etcd localShardKey truth ∨
    (syncShards eq localShardKey truth entries st etcd).2.2.2.2 = etcd := by
  intro entries
  induction entries with
  | nil =>
    intro st etcd
    exact Or.inr rfl
  | cons e rest ih =>
    obtain ⟨sk0, items0⟩ := e
    intro st etcd
    by_cases hsk0 : sk0 = localShardKey
    · subst hsk0
      simp only [syncShards, if_pos rfl]
      rcases ih st (setL etcd sk0 truth) with h | h
      · rw [setL_setL_self] at h
        exact Or.inl h
      · exact Or.inl h
    · simp only [syncShards, if_neg hsk0, syncToInternalState_state]
      exact ih _ etcd

/-- When every non-local entry of the processed list is already stored
verbatim, the shard loop produces no callback payloads. -/
theorem syncShards_noop {T : Type} (eq : T → T → Bool) (localShardKey : String)
    (truth : ShardMap T) (hrefl : ∀ a, eq a a = true) :
    ∀ (entries : List (String × ShardMap T)) (st etcd : ShardedData T),
    (keysL entries).Nodup →
    (∀ sk items, (sk, items) ∈ entries → sk ≠ localShardKey →
      lookupL st sk = some items ∧ (keysL items).Nodup) →
    (syncShards eq localShardKey truth entries st etcd).1 = [] ∧
    (syncShards eq localShardKey truth entries st etcd).2.1 = [] ∧
    (syncShards eq localShardKey truth entries st etcd).2.2.1 = [] := by
  intro entries
  induction entries with
  | nil =>
    intro st etcd _ _
    exact ⟨rfl, rfl, rfl⟩
  | cons e rest ih =>
    obtain ⟨sk0, items0⟩ := e
    intro st etcd hN hinv
    rw [show keysL ((sk0, items0) :: rest) = sk0 :: keysL rest from rfl,
      List.nodup_cons] at hN
    by_cases hsk0 : sk0 = localShardKey
    · simp only [syncShards, if_pos hsk0]
      exact ih st _ hN.2
        (fun sk' items' hmem hne => hinv sk' items' (List.mem_cons_of_mem _ hmem) hne)
    · have hlook := hinv sk0 items0 (List.mem_cons_self _ _) hsk0
      have hA := syncToInternalState_self eq st sk0 items0 hrefl hlook.2 hlook.1
      have hinv' : ∀ sk' items', (sk', items') ∈ rest → sk' ≠ localShardKey →
          lookupL (setL st sk0 items0) sk' = some items' ∧ (keysL items').Nodup := by
        intro sk' items' hmem hne
        have hne2 : sk' ≠ sk0 := by
          intro he
          subst he
          exact hN.1 (List.mem_map.mpr ⟨(sk', items'), hmem, rfl⟩)
        rw [lookupL_setL_ne st sk0 sk' items0 hne2]
        exact hinv sk' items' (List.mem_cons_of_mem _ hmem) hne
      have hrest := ih (setL st sk0 items0) etcd hN.2 hinv'
      refine ⟨?_, ?_, ?_⟩ <;>
        simp only [syncShards, if_neg hsk0, hA] <;>
        simp [hrest.1, hrest.2.1, hrest.2.2]

/-- C9: after `Sync(truth)` completes, a second `Sync(truth)` with the
same truth fires no OnAdded, OnChanged or OnRemoved callbacks: the second
diff against the now-identical internal state is empty (items compared by
the reflexive `Equals`).  Go-map well-formedness (nodup keys) of the truth
and of the loaded etcd data is assumed. -/
theorem c9_sync_idempotent {T : Type} (eq : T → T → Bool) (localShardKey : String)
    (st0 etcd0 : ShardedData T) (truth : ShardMap T)
    (hrefl : ∀ a, eq a a = true)
    (htruth : (keysL truth).Nodup)
    (hetcdN : (keysL etcd0).Nodup)
    (hinner : ∀ sk items, (sk, items) ∈ etcd0 → (keysL items).Nodup) :
    (sync eq localShardKey (sync eq localShardKey st0 etcd0 truth).state
        (sync eq localShardKey st0 etcd0 truth).etcd truth).added = [] ∧
    (sync eq localShardKey (sync eq localShardKey st0 etcd0 truth).state
        (sync eq localShardKey st0 etcd0 truth).etcd truth).changes = [] ∧
    (sync eq localShardKey (sync eq localShardKey st0 etcd0 truth).state
        (sync eq localShardKey st0 etcd0 truth).etcd truth).removed = [] := by
  set r1 := sync eq localShardKey st0 etcd0 truth with hr1
  have hstate : r1.state =
      (syncShards eq localShardKey truth etcd0 (setL st0 localShardKey truth)
        etcd0).2.2.2.1 := by
    rw [hr1]
    simp only [sync, syncToInternalState_state]
  have hetcd : r1.etcd =
      (syncShards eq localShardKey truth etcd0 (setL st0 localShardKey truth)
        etcd0).2.2.2.2 := by
    rw [hr1]
    simp only [sync, syncToInternalState_state]
  have hstate_local : lookupL r1.state localShardKey = some truth := by
    rw [hstate, syncShards_state_localKey eq localShardKey truth etcd0 _ etcd0]
    exact lookupL_setL_self st0 localShardKey truth
  have hstate_mem : ∀ sk items, (sk, items) ∈ etcd0 → sk ≠ localShardKey →
      lookupL r1.state sk = some items := by
    intro sk items hmem hne
    rw [hstate]
    exact syncShards_state_mem eq localShardKey truth etcd0 _ etcd0 hetcdN sk items
      hmem hne
  have hetcd1 : r1.etcd = setL etcd0 localShardKey truth ∨ r1.etcd = etcd0 := by
    rw [hetcd]
    exact syncShards_etcd eq localShardKey truth etcd0 _ etcd0
  have hA2 := syncToInternalState_self eq r1.state localShardKey truth hrefl htruth
    hstate_local
  have hinv : ∀ sk items, (sk, items) ∈ r1.etcd → sk ≠ localShardKey →
      lookupL (setL r1.state localShardKey truth) sk = some items ∧
      (keysL items).Nodup := by
    intro sk items hmem hne
    have hmem0 : (sk, items) ∈ etcd0 := by
      rcases hetcd1 with he | he
      · rw [he] at hmem
        rcases mem_setL_elim hmem with h1 | h1
        · injection h1 with ha hb
          exact absurd ha hne
        · exact h1.1
      · rw [he] at hmem
        exact hmem
    refine ⟨?_, hinner sk items hmem0⟩
    rw [lookupL_setL_ne r1.state localShardKey sk truth hne]
    exact hstate_mem sk items hmem0 hne
  have hetcdN1 : (keysL r1.etcd).Nodup := by
    rcases hetcd1 with he | he
    · rw [he]
      exact nodup_keysL_setL etcd0 localShardKey truth hetcdN
    · rw [he]
      exact hetcdN
  have hloop := syncShards_noop eq localShardKey truth hrefl r1.etcd
    (setL r1.state localShardKey truth) r1.etcd hetcdN1 hinv
  refine ⟨?_, ?_, ?_⟩ <;>
    simp only [sync, hA2, syncToInternalState_state] <;>
    simp [hloop.1, hloop.2.1, hloop.2.2]

/-- Witness for C9 at a concrete store: one local item, one remote shard. -/
theorem c9_sync_idempotent_witness :
    (sync (fun a b : Nat => a == b) "hostA"
        (sync (fun a b : Nat => a == b) "hostA"
          [("hostB", [("i2", 5)])] [("hostB", [("i2", 5)])] [("i1", 4)]).state
        (sync (fun a b : Nat => a == b) "hostA"
          [("hostB", [("i2", 5)])] [("hostB", [("i2", 5)])] [("i1", 4)]).etcd
        [("i1", 4)]).added = [] ∧
    (sync (fun a b : Nat => a == b) "hostA"
        (sync (fun a b : Nat => a == b) "hostA"
          [("hostB", [("i2", 5)])] [("hostB", [("i2", 5)])] [("i1", 4)]).state
        (sync (fun a b : Nat => a == b) "hostA"
          [("hostB", [("i2", 5)])] [("hostB", [("i2", 5)])] [("i1", 4)]).etcd
        [("i1", 4)]).changes = [] ∧
    (sync (fun a b : Nat => a == b) "hostA"
        (sync (fun a b : Nat => a == b) "hostA"
          [("hostB", [("i2", 5)])] [("hostB", [("i2", 5)])] [("i1", 4)]).state
        (sync (fun a b : Nat => a == b) "hostA"
          [("hostB", [("i2", 5)])] [("hostB", [("i2", 5)])] [("i1", 4)]).etcd
        [("i1", 4)]).removed = [] :=
  c9_sync_idempotent (fun a b : Nat => a == b) "hostA"
    [("hostB", [("i2", 5)])] [("hostB", [("i2", 5)])] [("i1", 4)]
    (fun a => by simp) (by decide) (by decide)
    (by
      intro sk items hmem
      simp at hmem
      rw [hmem.2]
      decide)

end Flannel
